import Mathlib

/-!
Verification of the election-map aggregation pipeline (`script.js`, v20).

The JavaScript source is shallowly embedded: JS objects with string keys are
ordered association lists (`OMap`), JS `Array.prototype.sort` (stable, by the
comparator `(a, b) => b.votes - a.votes`) is `List.insertionSort` by votes
descending, numeric cells parsed by the CSV reader are `Option Nat` (with
`x || 0` rendered as `Option.getD x 0`), and a missing/falsy string field is
the empty string.
-/

namespace Election

/-- Ordered map: the embedding of a JS object with string keys
(insertion-ordered, as guaranteed for string keys by the JS spec). -/
abbrev OMap (α : Type) := List (String × α)

/-- Key lookup in a JS object (`m[k]`, `none` = `undefined`). -/
def omapFind {α : Type} (m : OMap α) (k : String) : Option α :=
  match m with
  | [] => none
  | (k2, v) :: rest => if k2 = k then some v else omapFind rest k

/-- Key assignment in a JS object (`m[k] = v`): updates in place when the key
exists, otherwise appends at the end, as JS insertion order dictates. -/
def omapSet {α : Type} (m : OMap α) (k : String) (v : α) : OMap α :=
  match m with
  | [] => [(k, v)]
  | (k2, v2) :: rest => if k2 = k then (k, v) :: rest else (k2, v2) :: omapSet rest k v

/-- Key removal (`delete m[k]`). -/
def omapErase {α : Type} (m : OMap α) (k : String) : OMap α :=
  m.filter (fun p => p.1 ≠ k)

/-- `Object.keys(m)` in insertion order. -/
def omapKeys {α : Type} (m : OMap α) : List String :=
  m.map (·.1)

-- the two party constants of script.js
def KMT_PARTY_NAME : String := "中國國民黨"

def DPP_PARTY_NAME : String := "民主進步黨"

/-- The allow-list `RECALL_DISTRICTS` of script.js. -/
def RECALL_DISTRICTS : List String :=
  ["臺東縣第01選區", "臺北市第08選區", "臺北市第07選區", "臺北市第06選區",
   "臺北市第04選區", "臺北市第03選區", "臺中市第08選區", "臺中市第06選區",
   "臺中市第05選區", "臺中市第04選區", "臺中市第03選區", "臺中市第02選區",
   "彰化縣第03選區", "新竹縣第02選區", "新竹縣第01選區", "新竹市第01選區",
   "新北市第09選區", "新北市第08選區", "新北市第07選區", "新北市第12選區",
   "新北市第11選區", "新北市第01選區", "雲林縣第01選區", "基隆市第01選區",
   "桃園市第06選區", "桃園市第05選區", "桃園市第04選區", "桃園市第03選區",
   "桃園市第02選區", "桃園市第01選區", "苗栗縣第02選區", "苗栗縣第01選區",
   "南投縣第02選區", "南投縣第01選區", "花蓮縣第01選區"]

/-- One parsed CSV vote record. A missing/falsy string cell is `""`; a
missing/non-numeric numeric cell is `none` (the code reads it as `x || 0`). -/
structure RawVoteRow where
  geo_key : String
  electoral_district_name : String
  candidate_name : String
  party_name : String
  votes : Option Nat
  electorate : Option Nat
  total_votes : Option Nat
  county_name : String
  township_name : String
  village_name : String
deriving DecidableEq

/-- Per-district aggregated candidate entry (`{ votes, party }`). -/
structure DistCand where
  votes : Nat
  party : String
deriving DecidableEq

/-- A district entry of `districtResults` after processing. -/
structure District where
  candidates : OMap DistCand
  searchableString : String
  winner : Option String
  winnerParty : Option String
deriving DecidableEq

/-- A candidate entry pushed onto a village (`{ name, party, votes }`). -/
structure VillageCand where
  name : String
  party : String
  votes : Nat
deriving DecidableEq

/-- A village entry of `villageResults`. `leader`/`runnerUp` are `none`
before the final pass (JS `undefined`). -/
structure Village where
  geo_key : String
  fullName : String
  districtName : String
  electorate : Nat
  total_votes : Nat
  candidates : List VillageCand
  districtWinnerName : Option String
  districtWinnerParty : Option String
  leader : Option VillageCand
  runnerUp : Option VillageCand
deriving DecidableEq

/-- The row filter of `processVoteData`:
`row.electoral_district_name && recallDistrictSet.has(row.electoral_district_name)`. -/
def inScopeRow (row : RawVoteRow) : Bool :=
  row.electoral_district_name ≠ "" && RECALL_DISTRICTS.contains row.electoral_district_name

/-- First `forEach` of `processVoteData`: accumulate one row into
(`districtResults[*].candidates`, `districtTownships`). -/
def addRowToDistricts (acc : OMap (OMap DistCand) × OMap (List String)) (row : RawVoteRow) :
    OMap (OMap DistCand) × OMap (List String) :=
  let dn := row.electoral_district_name
  if dn = "" then acc
  else
    let ts := (omapFind acc.2 dn).getD []
    let ts := if ts.contains row.township_name then ts else ts ++ [row.township_name]
    let cands := (omapFind acc.1 dn).getD []
    let current := (omapFind cands row.candidate_name).getD ⟨0, row.party_name⟩
    let current : DistCand := ⟨current.votes + row.votes.getD 0, current.party⟩
    (omapSet acc.1 dn (omapSet cands row.candidate_name current), omapSet acc.2 dn ts)

/-- Descending-by-votes comparator of the two `sort` calls
(`(a, b) => b[1].votes - a[1].votes`), as a relation on entries. -/
def distCandGE (a b : String × DistCand) : Prop :=
  b.2.votes ≤ a.2.votes

instance : DecidableRel distCandGE :=
  fun a b => inferInstanceAs (Decidable (b.2.votes ≤ a.2.votes))

instance : IsTotal (String × DistCand) distCandGE :=
  ⟨fun a b => Nat.le_total b.2.votes a.2.votes⟩

instance : IsTrans (String × DistCand) distCandGE :=
  ⟨fun _ _ _ h1 h2 => le_trans h2 h1⟩

/-- Build the final district entry: searchable string plus
winner/winnerParty from the vote-descending sort of `Object.entries`. -/
def finishDistrict (dn : String) (cands : OMap DistCand) (townships : List String) : District :=
  let candidatesString := String.intercalate " " (omapKeys cands)
  let townshipsString := String.intercalate " " townships
  let sortedCandidates := List.insertionSort distCandGE cands
  { candidates := cands
    searchableString := dn ++ " " ++ townshipsString ++ " " ++ candidatesString
    winner := (sortedCandidates[0]?).map (·.1)
    winnerParty := (sortedCandidates[0]?).map (·.2.party) }

/-- District half of `processVoteData` (first `forEach` plus the two
`for (const districtName in districtResults)` loops). -/
def buildDistrictResults (filteredVoteData : List RawVoteRow) : OMap District :=
  let acc := filteredVoteData.foldl addRowToDistricts ([], [])
  acc.1.map (fun p => (p.1, finishDistrict p.1 p.2 ((omapFind acc.2 p.1).getD [])))

/-- Second `forEach` of `processVoteData`: create the village on first
sight of its `geo_key` (metadata from that row), then push the row's
candidate; also record `geoKeyToDistrictMap`. -/
def addRowToVillages (districtResults : OMap District)
    (acc : OMap Village × OMap String) (row : RawVoteRow) : OMap Village × OMap String :=
  if row.geo_key = "" ∨ row.electoral_district_name = "" then acc
  else
    let vill0 : Village :=
      match omapFind acc.1 row.geo_key with
      | some v => v
      | none =>
        let districtWinner := omapFind districtResults row.electoral_district_name
        { geo_key := row.geo_key
          fullName := row.county_name ++ " " ++ row.township_name ++ " " ++ row.village_name
          districtName := row.electoral_district_name
          electorate := row.electorate.getD 0
          total_votes := row.total_votes.getD 0
          candidates := []
          districtWinnerName :=
            match districtWinner with
            | some d => d.winner
            | none => some "N/A"
          districtWinnerParty :=
            match districtWinner with
            | some d => d.winnerParty
            | none => some "N/A"
          leader := none
          runnerUp := none }
    let vill := { vill0 with
      candidates := vill0.candidates ++ [⟨row.candidate_name, row.party_name, row.votes.getD 0⟩] }
    (omapSet acc.1 row.geo_key vill, omapSet acc.2 row.geo_key row.electoral_district_name)

/-- Same comparator for village candidate lists (`(a, b) => b.votes - a.votes`). -/
def villCandGE (a b : VillageCand) : Prop :=
  b.votes ≤ a.votes

instance : DecidableRel villCandGE :=
  fun a b => inferInstanceAs (Decidable (b.votes ≤ a.votes))

instance : IsTotal VillageCand villCandGE :=
  ⟨fun a b => Nat.le_total b.votes a.votes⟩

instance : IsTrans VillageCand villCandGE :=
  ⟨fun _ _ _ h1 h2 => le_trans h2 h1⟩

/-- Final `for (const key in villageResults)` loop: sort candidates by
votes descending and set leader (index 0) and runner-up (index 1). -/
def finalizeVillage (v : Village) : Village :=
  let sorted := List.insertionSort villCandGE v.candidates
  { v with candidates := sorted, leader := sorted[0]?, runnerUp := sorted[1]? }

/-- The three outputs of `processVoteData` (module globals in the JS). -/
structure AggResult where
  villageResults : OMap Village
  districtResults : OMap District
  geoKeyToDistrictMap : OMap String
deriving DecidableEq

/-- The aggregator `processVoteData` of script.js. -/
def processVoteData (voteData : List RawVoteRow) : AggResult :=
  let filteredVoteData := voteData.filter inScopeRow
  let districtResults := buildDistrictResults filteredVoteData
  let pre := filteredVoteData.foldl (addRowToVillages districtResults) ([], [])
  { villageResults := pre.1.map (fun p => (p.1, finalizeVillage p.2))
    districtResults := districtResults
    geoKeyToDistrictMap := pre.2 }

-- ---------------------------------------------------------------------------
-- String helpers (char-level embeddings of the JS string methods used)

/-- Strip leading and trailing whitespace (JS `String.prototype.trim`). -/
def trimChars (l : List Char) : List Char :=
  ((l.dropWhile Char.isWhitespace).reverse.dropWhile Char.isWhitespace).reverse

/-- `s.trim()`. -/
def jsTrim (s : String) : String :=
  String.mk (trimChars s.data)

/-- `s.toLowerCase()`. -/
def jsToLower (s : String) : String :=
  String.mk (s.data.map Char.toLower)

/-- `s.includes(q)` (substring test). -/
def strIncludes (s q : String) : Bool :=
  decide (q.data <:+: s.data)

-- ---------------------------------------------------------------------------
-- Color classifier (getColor of script.js, v20)

/-- The turnout-differential classifier `getColor` of script.js. Vote ratios
are embedded as exact rationals (the JS `0.05` literal denotes the threshold
five-hundredths). -/
def getColor (village : Village) : String :=
  match village.leader, village.runnerUp with
  | some leader, some runnerUp =>
    if village.electorate = 0 then "#cccccc"
    else
      let leaderTurnout : ℚ := (leader.votes : ℚ) / (village.electorate : ℚ)
      let runnerUpTurnout : ℚ := (runnerUp.votes : ℚ) / (village.electorate : ℚ)
      let turnoutDiff := |leaderTurnout - runnerUpTurnout|
      if turnoutDiff < 5 / 100 then "#ef4444"
      else if leader.party = KMT_PARTY_NAME then "#3b82f6"
      else if leader.party = DPP_PARTY_NAME then "#16a34a"
      else "rgba(0, 0, 0, 0.4)"
  | _, _ => "#cccccc"

/-- Modelled from the spec (§4.2, turnout-differential + party policy), for
the refinement claim C4: leader's party mapped to its fixed color, any other
party to the neutral gray. -/
def specPartyColor (party : String) : String :=
  if party = KMT_PARTY_NAME then "#3b82f6"
  else if party = DPP_PARTY_NAME then "#16a34a"
  else "rgba(0, 0, 0, 0.4)"

/-- Modelled from the spec (§4.2, turnout-differential + party policy), for
the refinement claim C4: no-data gray when leader/runner-up/electorate is
absent or zero; contested red when the absolute turnout differential is below
0.05; otherwise the leader's party color. -/
def specTurnoutClassifier (v : Village) : String :=
  match v.leader, v.runnerUp with
  | some leader, some runnerUp =>
    if v.electorate = 0 then "#cccccc"
    else
      let diff := |(leader.votes : ℚ) / (v.electorate : ℚ) -
        (runnerUp.votes : ℚ) / (v.electorate : ℚ)|
      if diff < 5 / 100 then "#ef4444"
      else specPartyColor leader.party
  | _, _ => "#cccccc"

-- ---------------------------------------------------------------------------
-- Year load: the schema gate of loadAndDisplayYear

/-- One row as handed to the schema gate: the set of CSV column names the
parsed object carries (`hasOwnProperty`), plus its typed reading. -/
structure ParsedRow where
  keys : List String
  row : RawVoteRow
deriving DecidableEq

/-- `requiredKeys` of loadAndDisplayYear. -/
def requiredKeys : List String :=
  ["geo_key", "electoral_district_name", "candidate_name", "party_name", "votes",
   "electorate", "total_votes", "county_name", "township_name"]

/-- The vote-data half of `loadAndDisplayYear`: throw (`.error`) unless the
first row exists and carries every required column
(`!voteDataRows[0] || requiredKeys.some(key => !voteDataRows[0].hasOwnProperty(key))`),
then aggregate with `processVoteData`. -/
def loadYearVotes (voteDataRows : List ParsedRow) : Except String AggResult :=
  match voteDataRows with
  | [] => Except.error "CSV 檔案缺少必要欄位"
  | first :: _ =>
    if requiredKeys.any (fun key => !(first.keys.contains key)) then
      Except.error "CSV 檔案缺少必要欄位"
    else
      Except.ok (processVoteData (voteDataRows.map (fun r => r.row)))

-- ---------------------------------------------------------------------------
-- The user-note store (saveAnnotation / deleteAnnotation / renderAnnotationList
-- of script.js; names shortened to Annot in this embedding)

/-- One stored user note: `{ name, note, lat, lng }`. Coordinates are carried
opaquely (never computed with in scope), embedded as integers. -/
structure Annot where
  name : String
  note : String
  lat : Int
  lng : Int
deriving DecidableEq

/-- The module-global `annotations` object. -/
abbrev AnnotStore := OMap Annot

/-- Observable side effects of a store mutation: `addOrUpdateMarker`,
`renderAnnotationList`, and the `alert` popup. -/
inductive StoreEffect where
  | markerRefresh (geoKey : String)
  | listRender
  | alertMsg (msg : String)
deriving DecidableEq

/-- `deleteAnnotation(geoKey)`: guarded by `if (annotations[geoKey])`. -/
def deleteAnnot (annots : AnnotStore) (geoKey : String) : AnnotStore × List StoreEffect :=
  match omapFind annots geoKey with
  | some _ =>
    (omapErase annots geoKey,
     [StoreEffect.markerRefresh geoKey, StoreEffect.listRender,
      StoreEffect.alertMsg "註解已刪除！"])
  | none => (annots, [])

/-- `saveAnnotation(geoKey, name, note, lat, lng)`: an empty trimmed note
delegates to delete, otherwise upsert plus marker/list/alert effects. -/
def saveAnnot (annots : AnnotStore) (geoKey name note : String) (lat lng : Int) :
    AnnotStore × List StoreEffect :=
  if jsTrim note = "" then deleteAnnot annots geoKey
  else
    (omapSet annots geoKey ⟨name, note, lat, lng⟩,
     [StoreEffect.markerRefresh geoKey, StoreEffect.listRender,
      StoreEffect.alertMsg ("已儲存對「" ++ name ++ "」的註解！")])

/-- The keys `renderAnnotationList` lists, in insertion order. -/
def annotListKeys (annots : AnnotStore) : List String :=
  omapKeys annots

/-- One user action against the note store. -/
inductive AnnotOp where
  | save (geoKey name note : String) (lat lng : Int)
  | del (geoKey : String)
deriving DecidableEq

/-- The store after one action. -/
def applyAnnotOp (annots : AnnotStore) (op : AnnotOp) : AnnotStore :=
  match op with
  | AnnotOp.save geoKey name note lat lng => (saveAnnot annots geoKey name note lat lng).1
  | AnnotOp.del geoKey => (deleteAnnot annots geoKey).1

/-- The store after a sequence of actions. -/
def runAnnotOps (annots : AnnotStore) (ops : List AnnotOp) : AnnotStore :=
  ops.foldl applyAnnotOp annots

-- ---------------------------------------------------------------------------
-- CSV export (exportToCSV of script.js) and a reference CSV reader

/-- `note.replace(/"/g, '""')`. -/
def escapeQuotes : List Char → List Char
  | [] => []
  | c :: rest =>
    if c = '"' then '"' :: '"' :: escapeQuotes rest else c :: escapeQuotes rest

/-- `parts.join(sep)` on char lists. -/
def joinChar (sep : Char) : List (List Char) → List Char
  | [] => []
  | [x] => x
  | x :: rest => x ++ sep :: joinChar sep rest

/-- The header `['name', 'latitude', 'longitude', 'note'].join(',')`. -/
def csvHeader : List Char :=
  "name,latitude,longitude,note".data

/-- One exported row: `[a.name, a.lat, a.lng, '"' + escaped + '"'].join(',')`. -/
def csvRowChars (a : Annot) : List Char :=
  joinChar ',' [a.name.data, (toString a.lat).data, (toString a.lng).data,
    ('"' :: escapeQuotes a.note.data) ++ ['"']]

/-- `exportToCSV`: `none` models the early-return alert on an empty store,
otherwise the produced file content (rows joined with a newline). -/
def exportToCSV (annots : AnnotStore) : Option String :=
  if annots.isEmpty then none
  else some (String.mk (joinChar '\n' (csvHeader :: annots.map (fun p => csvRowChars p.2))))

/-- Modelled from the spec: script.js hands CSV re-parsing to an external
library (out of scope per the spec, §1/§6). This is a standard quoted-field
CSV reader used to state the round-trip claim C8: fields split on commas,
records on newlines, a double quote opening a field starts a quoted field
read to the matching close quote, with doubled quotes read as one literal
quote. State: remaining input, inside-quotes flag, current field, current
record, finished records. -/
def csvScan : List Char → Bool → List Char → List String → List (List String) →
    List (List String)
  | [], _, field, recd, rows => rows ++ [recd ++ [String.mk field]]
  | '"' :: '"' :: cs, true, field, recd, rows => csvScan cs true (field ++ ['"']) recd rows
  | '"' :: cs, true, field, recd, rows => csvScan cs false field recd rows
  | c :: cs, true, field, recd, rows => csvScan cs true (field ++ [c]) recd rows
  | c :: cs, false, field, recd, rows =>
    if c = '"' && field.isEmpty then csvScan cs true field recd rows
    else if c = ',' then csvScan cs false [] (recd ++ [String.mk field]) rows
    else if c = '\n' then csvScan cs false [] [] (rows ++ [recd ++ [String.mk field]])
    else csvScan cs false (field ++ [c]) recd rows

/-- Modelled from the spec: parse a whole CSV text into records of fields. -/
def parseCSV (s : String) : List (List String) :=
  csvScan s.data false [] [] []

/-- The (name, lat, lng, note) tuple of one stored note, as the field row its
export stands for. -/
def annotTuple (a : Annot) : List String :=
  [a.name, toString a.lat, toString a.lng, a.note]

/-- A text that survives a comma-separated unquoted CSV field: no separator,
record break, or quote. -/
def csvSafe (s : String) : Prop :=
  ∀ c ∈ s.data, c ≠ ',' ∧ c ≠ '\n' ∧ c ≠ '"'

instance (s : String) : Decidable (csvSafe s) :=
  inferInstanceAs (Decidable (∀ c ∈ s.data, c ≠ ',' ∧ c ≠ '\n' ∧ c ≠ '"'))

-- ---------------------------------------------------------------------------
-- Selection / filter controller (loadAndDisplayYear, handleSearch,
-- clearSearch, the district selector change handler)

/-- The controller state: the module global `currentSelectedDistrict`, the
selector's DOM value, the search box value, and the options shown. -/
structure UIState where
  currentSelectedDistrict : String
  selectorValue : String
  searchValue : String
  shownDistricts : List String
deriving DecidableEq

/-- The user/system events driving the controller. -/
inductive UIEvent where
  | yearLoaded
  | searchInput (q : String)
  | clearSearchClick
  | districtChange (v : String)
deriving DecidableEq

/-- Rendering side effects: `renderMapLayers`, `map.removeLayer` (from
`clearUI`), `resetInfoPanel`. -/
inductive UIEffect where
  | renderMap
  | clearMapLayer
  | resetInfo
deriving DecidableEq

/-- The data the handlers read: `winners2024` and `districtResults`. -/
structure UIEnv where
  winners2024 : OMap String
  districtResults : OMap District

/-- `populateDistrictFilter(districtsToShow)`: rebuild the selector options
and reset the selector to the 'none' placeholder
(`districtSelector.value = 'none'`). The zh-Hant locale collation of the
option labels is display-only and kept as given. -/
def populateDistrictFilter (s : UIState) (districtsToShow : List String) : UIState :=
  { s with shownDistricts := districtsToShow, selectorValue := "none" }

/-- `handleSearch`: trimmed lowercase query; empty restores the full list,
otherwise filter `RECALL_DISTRICTS` by the two searchable strings. -/
def handleSearch (env : UIEnv) (s : UIState) : UIState :=
  let query := jsTrim (jsToLower s.searchValue)
  if query = "" then populateDistrictFilter s RECALL_DISTRICTS
  else
    let matched := RECALL_DISTRICTS.filter (fun districtName =>
      let winnerName := (omapFind env.winners2024 districtName).getD ""
      let searchableString := jsToLower (districtName ++ " " ++ winnerName)
      let fullSearchableString :=
        match omapFind env.districtResults districtName with
        | some d => jsToLower d.searchableString
        | none => ""
      strIncludes searchableString query || strIncludes fullSearchableString query)
    populateDistrictFilter s matched

/-- One controller transition with its rendering effects. `yearLoaded` is the
successful completion of `loadAndDisplayYear` (populate, reset selection,
`clearUI`); `districtChange` is the selector's change handler, a guarded
no-op on the 'none' placeholder. -/
def uiStep (env : UIEnv) (s : UIState) (e : UIEvent) : UIState × List UIEffect :=
  match e with
  | UIEvent.yearLoaded =>
    let s2 := populateDistrictFilter s RECALL_DISTRICTS
    ({ s2 with currentSelectedDistrict := "none" },
     [UIEffect.clearMapLayer, UIEffect.resetInfo])
  | UIEvent.searchInput q =>
    (handleSearch env { s with searchValue := q }, [])
  | UIEvent.clearSearchClick =>
    let s2 := populateDistrictFilter { s with searchValue := "" } RECALL_DISTRICTS
    ({ s2 with selectorValue := "none", currentSelectedDistrict := "none" },
     [UIEffect.clearMapLayer, UIEffect.resetInfo])
  | UIEvent.districtChange v =>
    let s2 := { s with selectorValue := v }
    if v = "none" then (s2, [])
    else ({ s2 with currentSelectedDistrict := v },
      [UIEffect.renderMap, UIEffect.resetInfo])

/-- The state at startup: `currentSelectedDistrict = 'none'`, no query; the
selector options are only read after the first `populateDistrictFilter`. -/
def initUIState : UIState :=
  { currentSelectedDistrict := "none"
    selectorValue := "none"
    searchValue := ""
    shownDistricts := RECALL_DISTRICTS }

-- ---------------------------------------------------------------------------
-- Concrete sample data (the two-row scenario of the spec, §8) for witnesses

/-- Sample row: candidate X, 600 votes in village A1 of an allow-listed
district. -/
def rowX : RawVoteRow :=
  { geo_key := "A1", electoral_district_name := "臺東縣第01選區", candidate_name := "X",
    party_name := "P1", votes := some 600, electorate := some 1000, total_votes := some 900,
    county_name := "C", township_name := "T", village_name := "V1" }

/-- Sample row: candidate Y, 300 votes in the same village. -/
def rowY : RawVoteRow :=
  { rowX with candidate_name := "Y", party_name := "P2", votes := some 300 }

/-- Sample row with a missing (falsy) `geo_key` but a valid district. -/
def rowNoGeo : RawVoteRow :=
  { rowX with geo_key := "", votes := some 5 }

/-- The village the aggregator produces for `[rowX, rowY]`. -/
def villageA1 : Village :=
  { geo_key := "A1", fullName := "C T V1", districtName := "臺東縣第01選區",
    electorate := 1000, total_votes := 900,
    candidates := [⟨"X", "P1", 600⟩, ⟨"Y", "P2", 300⟩],
    districtWinnerName := some "X", districtWinnerParty := some "P1",
    leader := some ⟨"X", "P1", 600⟩, runnerUp := some ⟨"Y", "P2", 300⟩ }

/-- The district the aggregator produces for `[rowX, rowY]`. -/
def districtTaitung : District :=
  { candidates := [("X", ⟨600, "P1"⟩), ("Y", ⟨300, "P2"⟩)],
    searchableString := "臺東縣第01選區 T X Y",
    winner := some "X", winnerParty := some "P1" }

-- principal lemmas about the JS-object model

@[simp]
theorem omapKeys_nil {α : Type} : omapKeys ([] : OMap α) = [] :=
  rfl

@[simp]
theorem omapKeys_cons {α : Type} (p : String × α) (m : OMap α) :
    omapKeys (p :: m) = p.1 :: omapKeys m :=
  rfl

theorem omapFind_set_self {α : Type} (m : OMap α) (k : String) (v : α) :
    omapFind (omapSet m k v) k = some v := by
  induction m with
  | nil => simp [omapSet, omapFind]
  | cons p rest ih =>
    by_cases h : p.1 = k <;> simp [omapSet, omapFind, h, ih]

theorem omapFind_set_ne {α : Type} (m : OMap α) (k k' : String) (v : α) (h : k' ≠ k) :
    omapFind (omapSet m k v) k' = omapFind m k' := by
  have h' : ¬ (k = k') := fun h2 => h h2.symm
  induction m with
  | nil => simp [omapSet, omapFind, h']
  | cons p rest ih =>
    rcases p with ⟨k2, v2⟩
    by_cases h1 : k2 = k
    · subst h1
      simp [omapSet, omapFind, h']
    · by_cases h2 : k2 = k' <;> simp [omapSet, omapFind, h, h1, h2, ih]

theorem mem_of_omapFind_eq_some {α : Type} {m : OMap α} {k : String} {v : α}
    (h : omapFind m k = some v) : (k, v) ∈ m := by
  induction m with
  | nil => simp [omapFind] at h
  | cons p rest ih =>
    by_cases h1 : p.1 = k
    · subst h1
      simp [omapFind] at h
      subst h
      exact List.mem_cons_self _ _
    · simp [omapFind, h1] at h
      exact List.mem_cons_of_mem _ (ih h)

theorem mem_of_mem_omapSet {α : Type} {m : OMap α} {k : String} {v : α} {p : String × α}
    (h : p ∈ omapSet m k v) : p = (k, v) ∨ p ∈ m := by
  induction m with
  | nil => simpa [omapSet] using h
  | cons q rest ih =>
    by_cases h1 : q.1 = k
    · simp [omapSet, h1] at h
      rcases h with h | h
      · exact Or.inl h
      · exact Or.inr (List.mem_cons_of_mem _ h)
    · simp [omapSet, h1] at h
      rcases h with h | h
      · exact Or.inr (by simp [h])
      · rcases ih h with h2 | h2
        · exact Or.inl h2
        · exact Or.inr (List.mem_cons_of_mem _ h2)

theorem omapKeys_set {α : Type} (m : OMap α) (k : String) (v : α) :
    omapKeys (omapSet m k v) = if k ∈ omapKeys m then omapKeys m else omapKeys m ++ [k] := by
  induction m with
  | nil => simp [omapSet]
  | cons p rest ih =>
    rcases p with ⟨k2, v2⟩
    by_cases h1 : k2 = k
    · subst h1
      simp [omapSet]
    · have h1' : ¬ (k = k2) := fun h2 => h1 h2.symm
      by_cases h2 : k ∈ omapKeys rest
      · simp [omapSet, h1, h1', h2, ih]
      · simp [omapSet, h1, h1', h2, ih]

theorem nodup_omapKeys_set {α : Type} {m : OMap α} (k : String) (v : α)
    (h : (omapKeys m).Nodup) : (omapKeys (omapSet m k v)).Nodup := by
  rw [omapKeys_set]
  by_cases h2 : k ∈ omapKeys m
  · simpa [h2] using h
  · simp only [h2, if_false]
    simpa [List.nodup_append, h2] using h

theorem omapFind_eq_some_of_mem_nodup {α : Type} {m : OMap α} {k : String} {v : α}
    (hmem : (k, v) ∈ m) (hnd : (omapKeys m).Nodup) : omapFind m k = some v := by
  induction m with
  | nil => simp at hmem
  | cons p rest ih =>
    rcases p with ⟨k2, v2⟩
    rw [omapKeys_cons, List.nodup_cons] at hnd
    rcases List.mem_cons.mp hmem with h | h
    · cases h
      simp [omapFind]
    · have hk : ¬ (k2 = k) := by
        intro hk
        subst hk
        exact hnd.1 (List.mem_map.mpr ⟨(k2, v), h, rfl⟩)
      simp only [omapFind, hk, if_false]
      exact ih h hnd.2

theorem omapFind_map {α β : Type} (m : OMap α) (f : α → β) (k : String) :
    omapFind (m.map (fun p => (p.1, f p.2))) k = (omapFind m k).map f := by
  induction m with
  | nil => simp [omapFind]
  | cons p rest ih =>
    by_cases h : p.1 = k <;> simp [omapFind, h, ih]

theorem omapFind_eq_none_iff {α : Type} (m : OMap α) (k : String) :
    omapFind m k = none ↔ k ∉ omapKeys m := by
  induction m with
  | nil => simp [omapFind]
  | cons p rest ih =>
    by_cases h : p.1 = k <;> simp [omapFind, h, ih] <;> tauto

theorem omapFind_erase_self {α : Type} (m : OMap α) (k : String) :
    omapFind (omapErase m k) k = none := by
  rw [omapFind_eq_none_iff]
  intro h
  rcases List.mem_map.mp h with ⟨p, hp, hpk⟩
  rcases List.mem_filter.mp hp with ⟨_, hne⟩
  simp [hpk] at hne

theorem omapFind_map_dep {α β : Type} (m : OMap α) (f : String → α → β) (k : String) :
    omapFind (m.map (fun p => (p.1, f p.1 p.2))) k = (omapFind m k).map (f k) := by
  induction m with
  | nil => simp [omapFind]
  | cons p rest ih =>
    by_cases h : p.1 = k
    · subst h
      simp [omapFind, ih]
    · simp [omapFind, h, ih]

theorem omapKeys_map {α β : Type} (m : OMap α) (f : String → α → β) :
    omapKeys (m.map (fun p => (p.1, f p.1 p.2))) = omapKeys m := by
  induction m with
  | nil => rfl
  | cons p rest ih => simp [ih]

-- max-at-the-front lemmas for vote-descending sorted lists

theorem head_max_of_pairwise {α : Type} (f : α → Nat) {l : List α}
    (h : l.Pairwise (fun a b => f b ≤ f a)) {a : α} (ha : l[0]? = some a) :
    ∀ c ∈ l, f c ≤ f a := by
  cases l with
  | nil => simp at ha
  | cons x t =>
    simp at ha
    subst ha
    intro c hc
    rcases List.mem_cons.mp hc with rfl | hc
    · exact le_refl _
    · exact List.rel_of_pairwise_cons h hc

theorem second_max_of_pairwise {α : Type} (f : α → Nat) {l : List α}
    (h : l.Pairwise (fun a b => f b ≤ f a)) {b : α} (hb : l[1]? = some b) :
    ∀ c ∈ l.drop 2, f c ≤ f b := by
  cases l with
  | nil => simp at hb
  | cons x t =>
    cases t with
    | nil => simp at hb
    | cons y t2 =>
      simp at hb
      subst hb
      intro c hc
      simp at hc
      exact List.rel_of_pairwise_cons h.of_cons hc

-- ---------------------------------------------------------------------------
-- Claim C4: the color classifier

/-- Claim C4: `getColor` is a pure function of the Village that returns the
no-data gray when leader, runner-up, or electorate is absent or zero, the
contested red when the absolute turnout differential is below 0.05 regardless
of party, and otherwise the leader's fixed party color (neutral gray for any
other party) — i.e. it coincides with the classifier transcribed from the
spec's words. -/
theorem getColor_eq_specTurnoutClassifier (v : Village) :
    getColor v = specTurnoutClassifier v := by
  unfold getColor specTurnoutClassifier specPartyColor
  cases v.leader <;> cases v.runnerUp <;> rfl

-- ---------------------------------------------------------------------------
-- Annotation-store helper lemmas

theorem deleteAnnot_of_find_none {annots : AnnotStore} {geoKey : String}
    (h : omapFind annots geoKey = none) : deleteAnnot annots geoKey = (annots, []) := by
  unfold deleteAnnot
  rw [h]

theorem saveAnnot_of_trim_empty {note : String} (annots : AnnotStore)
    (geoKey name : String) (lat lng : Int) (h : jsTrim note = "") :
    saveAnnot annots geoKey name note lat lng = deleteAnnot annots geoKey := by
  unfold saveAnnot
  rw [if_pos h]

theorem find_deleteAnnot_self (annots : AnnotStore) (geoKey : String) :
    omapFind (deleteAnnot annots geoKey).1 geoKey = none := by
  unfold deleteAnnot
  cases h : omapFind annots geoKey with
  | none => simpa using h
  | some a => simpa using omapFind_erase_self annots geoKey

theorem mem_deleteAnnot_fst {annots : AnnotStore} {geoKey : String} {p : String × Annot}
    (h : p ∈ (deleteAnnot annots geoKey).1) : p ∈ annots := by
  unfold deleteAnnot at h
  cases h2 : omapFind annots geoKey with
  | none =>
    rw [h2] at h
    exact h
  | some a =>
    rw [h2] at h
    exact (List.mem_filter.mp h).1

theorem applyAnnotOp_no_empty_note {annots : AnnotStore} (op : AnnotOp)
    (h : ∀ p ∈ annots, jsTrim p.2.note ≠ "") :
    ∀ p ∈ applyAnnotOp annots op, jsTrim p.2.note ≠ "" := by
  cases op with
  | save geoKey name note lat lng =>
    by_cases ht : jsTrim note = ""
    · intro p hp
      rw [show applyAnnotOp annots (AnnotOp.save geoKey name note lat lng) =
          (deleteAnnot annots geoKey).1 from by
        simp [applyAnnotOp, saveAnnot_of_trim_empty annots geoKey name lat lng ht]] at hp
      exact h p (mem_deleteAnnot_fst hp)
    · intro p hp
      simp only [applyAnnotOp, saveAnnot, if_neg ht] at hp
      rcases mem_of_mem_omapSet hp with rfl | hp2
      · exact ht
      · exact h p hp2
  | del geoKey =>
    intro p hp
    simp only [applyAnnotOp] at hp
    exact h p (mem_deleteAnnot_fst hp)

theorem runAnnotOps_no_empty_note (ops : List AnnotOp) (annots : AnnotStore)
    (h : ∀ p ∈ annots, jsTrim p.2.note ≠ "") :
    ∀ p ∈ runAnnotOps annots ops, jsTrim p.2.note ≠ "" := by
  induction ops generalizing annots with
  | nil => exact h
  | cons op rest ih =>
    exact ih (applyAnnotOp annots op) (applyAnnotOp_no_empty_note op h)

-- ---------------------------------------------------------------------------
-- Claim C5: empty-note save behaves as delete; no empty note survives

/-- Claim C5: saving a note whose trimmed text is empty behaves as delete —
afterwards the store holds nothing under the key and the rendered list omits
it — and consequently, after any sequence of save/delete actions from the
empty store, no stored note has empty or whitespace-only text. -/
theorem save_empty_note_behaves_as_delete :
    (∀ (annots : AnnotStore) (geoKey name note : String) (lat lng : Int),
      jsTrim note = "" →
        omapFind (saveAnnot annots geoKey name note lat lng).1 geoKey = none ∧
        geoKey ∉ annotListKeys (saveAnnot annots geoKey name note lat lng).1) ∧
    (∀ (ops : List AnnotOp), ∀ p ∈ runAnnotOps [] ops, jsTrim p.2.note ≠ "") := by
  constructor
  · intro annots geoKey name note lat lng h
    rw [saveAnnot_of_trim_empty annots geoKey name lat lng h]
    refine ⟨find_deleteAnnot_self annots geoKey, ?_⟩
    exact (omapFind_eq_none_iff _ _).mp (find_deleteAnnot_self annots geoKey)
  · intro ops
    exact runAnnotOps_no_empty_note ops [] (by simp)

/-- Witness for C5 at a concrete store and a whitespace-only note. -/
theorem save_empty_note_behaves_as_delete_witness :
    omapFind (saveAnnot [("A1", ⟨"C T V1", "old", 23, 121⟩)] "A1" "C T V1" " " 0 0).1 "A1" =
      none ∧
    "A1" ∉ annotListKeys (saveAnnot [("A1", ⟨"C T V1", "old", 23, 121⟩)] "A1" "C T V1" " " 0 0).1 :=
  save_empty_note_behaves_as_delete.1 [("A1", ⟨"C T V1", "old", 23, 121⟩)]
    "A1" "C T V1" " " 0 0 (by decide)

-- ---------------------------------------------------------------------------
-- Claim C6: delete on an absent key is a guarded no-op

/-- Claim C6: deleting a key that is not in the store leaves the store
unchanged, raises no error, and produces no marker refresh, list re-render,
or alert. -/
theorem delete_missing_key_noop (annots : AnnotStore) (geoKey : String)
    (h : omapFind annots geoKey = none) :
    deleteAnnot annots geoKey = (annots, []) :=
  deleteAnnot_of_find_none h

/-- Witness for C6 on a store without the key. -/
theorem delete_missing_key_noop_witness :
    deleteAnnot [("B2", ⟨"n", "t", 0, 0⟩)] "A1" = ([("B2", ⟨"n", "t", 0, 0⟩)], []) :=
  delete_missing_key_noop [("B2", ⟨"n", "t", 0, 0⟩)] "A1" (by decide)

-- ---------------------------------------------------------------------------
-- Claim C10: empty-note save on an absent key is a complete no-op

/-- Claim C10: saving a whitespace-only note under a key that is not in the
store is a complete no-op — the store is unchanged and no marker update,
list re-render, or alert occurs, because the save delegates to the guarded
delete. -/
theorem save_empty_missing_key_noop (annots : AnnotStore) (geoKey name note : String)
    (lat lng : Int) (h1 : omapFind annots geoKey = none) (h2 : jsTrim note = "") :
    saveAnnot annots geoKey name note lat lng = (annots, []) := by
  rw [saveAnnot_of_trim_empty annots geoKey name lat lng h2]
  exact deleteAnnot_of_find_none h1

/-- Witness for C10 on a store without the key. -/
theorem save_empty_missing_key_noop_witness :
    saveAnnot [("B2", ⟨"n", "t", 0, 0⟩)] "A1" "nm" "  " 1 2 = ([("B2", ⟨"n", "t", 0, 0⟩)], []) :=
  save_empty_missing_key_noop [("B2", ⟨"n", "t", 0, 0⟩)] "A1" "nm" "  " 1 2
    (by decide) (by decide)

-- ---------------------------------------------------------------------------
-- Claim C7: the schema gate of the year load

/-- Claim C7: with a first row present, the year load fails with the schema
error exactly when some of the nine required column names is absent from that
row; when all nine are present it proceeds to aggregation of the full row
list. -/
theorem loadYearVotes_schema_gate (first : ParsedRow) (rest : List ParsedRow) :
    ((∃ key ∈ requiredKeys, first.keys.contains key = false) →
      loadYearVotes (first :: rest) = Except.error "CSV 檔案缺少必要欄位") ∧
    ((∀ key ∈ requiredKeys, first.keys.contains key = true) →
      loadYearVotes (first :: rest) =
        Except.ok (processVoteData ((first :: rest).map (fun r => r.row)))) := by
  constructor
  · rintro ⟨key, hk, hmiss⟩
    simp [loadYearVotes]
    exact ⟨key, hk, by simpa using hmiss⟩
  · intro h
    simp [loadYearVotes]
    intro x hx
    simpa using h x hx

/-- Witness for C7: a first row carrying all nine columns loads. -/
theorem loadYearVotes_schema_gate_witness :
    loadYearVotes [⟨requiredKeys, rowX⟩] =
      Except.ok (processVoteData ([(⟨requiredKeys, rowX⟩ : ParsedRow)].map (fun r => r.row))) :=
  (loadYearVotes_schema_gate ⟨requiredKeys, rowX⟩ []).2 (by decide)

-- ---------------------------------------------------------------------------
-- Claim C9: selection resets; rendering only on explicit choice

/-- Claim C9: the selection is the 'none' sentinel initially, after every
successful year load, and after every search-query change; and no controller
transition renders the map except an explicit district choice (a district
name or the 'all' sentinel, never the 'none' placeholder). -/
theorem selection_resets_and_renders_only_on_choice :
    initUIState.selectorValue = "none" ∧
    initUIState.currentSelectedDistrict = "none" ∧
    (∀ (env : UIEnv) (s : UIState),
      (uiStep env s UIEvent.yearLoaded).1.selectorValue = "none" ∧
      (uiStep env s UIEvent.yearLoaded).1.currentSelectedDistrict = "none") ∧
    (∀ (env : UIEnv) (s : UIState) (q : String),
      (uiStep env s (UIEvent.searchInput q)).1.selectorValue = "none") ∧
    (∀ (env : UIEnv) (s : UIState) (e : UIEvent),
      UIEffect.renderMap ∈ (uiStep env s e).2 →
        ∃ v, e = UIEvent.districtChange v ∧ v ≠ "none") := by
  refine ⟨rfl, rfl, fun env s => ⟨rfl, rfl⟩, fun env s q => ?_, fun env s e h => ?_⟩
  · simp only [uiStep, handleSearch, populateDistrictFilter]
    split <;> rfl
  · cases e with
    | yearLoaded => simp [uiStep] at h
    | searchInput q => simp [uiStep] at h
    | clearSearchClick => simp [uiStep] at h
    | districtChange v =>
      by_cases hv : v = "none"
      · simp [uiStep, hv] at h
      · exact ⟨v, rfl, hv⟩

/-- Witness for C9: a render effect forces an explicit district choice. -/
theorem selection_resets_witness :
    ∃ v, UIEvent.districtChange "all" = UIEvent.districtChange v ∧ v ≠ "none" :=
  selection_resets_and_renders_only_on_choice.2.2.2.2 ⟨[], []⟩ initUIState
    (UIEvent.districtChange "all") (by decide)

-- ---------------------------------------------------------------------------
-- Aggregator helper lemmas

theorem omapFind_map_entry {α β : Type} (m : OMap α) (g : String × α → β) (k : String) :
    omapFind (m.map (fun p => (p.1, g p))) k = (omapFind m k).map (fun v => g (k, v)) := by
  induction m with
  | nil => simp [omapFind]
  | cons p rest ih =>
    rcases p with ⟨k2, v2⟩
    by_cases h : k2 = k
    · subst h
      simp [omapFind]
    · simp [omapFind, h, ih]

theorem villageResults_find (rows : List RawVoteRow) (gk : String) :
    omapFind (processVoteData rows).villageResults gk =
      (omapFind ((rows.filter inScopeRow).foldl
          (addRowToVillages (buildDistrictResults (rows.filter inScopeRow))) ([], [])).1 gk).map
        (fun v => finalizeVillage v) :=
  omapFind_map_entry _ (fun p => finalizeVillage p.2) gk

theorem districtResults_find (rows : List RawVoteRow) (dn : String) :
    omapFind (processVoteData rows).districtResults dn =
      (omapFind ((rows.filter inScopeRow).foldl addRowToDistricts ([], [])).1 dn).map
        (fun cands =>
          finishDistrict dn cands
            ((omapFind ((rows.filter inScopeRow).foldl addRowToDistricts ([], [])).2 dn).getD [])) :=
  omapFind_map_entry _
    (fun p => finishDistrict p.1 p.2
      ((omapFind ((rows.filter inScopeRow).foldl addRowToDistricts ([], [])).2 p.1).getD [])) dn

theorem finalizeVillage_candidates_sorted (v : Village) :
    (finalizeVillage v).candidates.Pairwise (fun a b => b.votes ≤ a.votes) :=
  List.sorted_insertionSort villCandGE v.candidates

theorem finalizeVillage_leader_eq (v : Village) :
    (finalizeVillage v).leader = (finalizeVillage v).candidates[0]? :=
  rfl

theorem finalizeVillage_runnerUp_eq (v : Village) :
    (finalizeVillage v).runnerUp = (finalizeVillage v).candidates[1]? :=
  rfl

-- ---------------------------------------------------------------------------
-- Claim C1: village candidate lists sorted descending, leader/runner-up

/-- Claim C1: every village the aggregator produces has its candidate list
sorted in descending vote order, its leader equal to the first entry (absent
for an empty list) and its runner-up equal to the second (absent below two
entries); hence the leader's votes bound the runner-up's, which bound every
further candidate's. -/
theorem village_invariants (rows : List RawVoteRow) (gk : String) (v : Village)
    (h : omapFind (processVoteData rows).villageResults gk = some v) :
    v.candidates.Pairwise (fun a b => b.votes ≤ a.votes) ∧
    v.leader = v.candidates.head? ∧
    v.runnerUp = v.candidates[1]? ∧
    (∀ l, v.leader = some l → ∀ c ∈ v.candidates, c.votes ≤ l.votes) ∧
    (∀ l r, v.leader = some l → v.runnerUp = some r →
      r.votes ≤ l.votes ∧ ∀ c ∈ v.candidates.drop 2, c.votes ≤ r.votes) := by
  rw [villageResults_find] at h
  rcases Option.map_eq_some'.mp h with ⟨v0, hv0, rfl⟩
  have hsorted := finalizeVillage_candidates_sorted v0
  refine ⟨hsorted, ?_, finalizeVillage_runnerUp_eq v0, ?_, ?_⟩
  · rw [finalizeVillage_leader_eq, List.head?_eq_getElem?]
  · intro l hl c hc
    rw [finalizeVillage_leader_eq] at hl
    exact head_max_of_pairwise (fun c => c.votes) hsorted hl c hc
  · intro l r hl hr
    rw [finalizeVillage_leader_eq] at hl
    rw [finalizeVillage_runnerUp_eq] at hr
    constructor
    · exact head_max_of_pairwise (fun c => c.votes) hsorted hl r (List.getElem?_mem hr)
    · exact second_max_of_pairwise (fun c => c.votes) hsorted hr

/-- Witness for C1 on the two-row sample. -/
theorem village_invariants_witness :
    villageA1.candidates.Pairwise (fun a b => b.votes ≤ a.votes) ∧
    villageA1.leader = villageA1.candidates.head? :=
  ⟨(village_invariants [rowX, rowY] "A1" villageA1 (by decide)).1,
   (village_invariants [rowX, rowY] "A1" villageA1 (by decide)).2.1⟩

-- ---------------------------------------------------------------------------
-- Claim C2: the district winner aggregates the most votes

theorem districts_fold_nodup (l : List RawVoteRow)
    (acc : OMap (OMap DistCand) × OMap (List String))
    (h : ∀ p ∈ acc.1, (omapKeys p.2).Nodup) :
    ∀ p ∈ (l.foldl addRowToDistricts acc).1, (omapKeys p.2).Nodup := by
  induction l generalizing acc with
  | nil => exact h
  | cons row rest ih =>
    rw [List.foldl_cons]
    apply ih
    intro p hp
    by_cases hd : row.electoral_district_name = ""
    · rw [show addRowToDistricts acc row = acc from by simp [addRowToDistricts, hd]] at hp
      exact h p hp
    · simp only [addRowToDistricts, if_neg hd] at hp
      rcases mem_of_mem_omapSet hp with rfl | hp2
      · apply nodup_omapKeys_set
        cases hfind : omapFind acc.1 row.electoral_district_name with
        | none => simp
        | some c => simpa using h _ (mem_of_omapFind_eq_some hfind)
      · exact h p hp2

theorem finishDistrict_winner_max (dn : String) (cands : OMap DistCand) (ts : List String)
    (hnd : (omapKeys cands).Nodup) (hne : cands ≠ []) :
    ∃ w cw, (finishDistrict dn cands ts).winner = some w ∧
      omapFind cands w = some cw ∧
      (finishDistrict dn cands ts).winnerParty = some cw.party ∧
      ∀ e ∈ cands, e.2.votes ≤ cw.votes := by
  have hperm := List.perm_insertionSort distCandGE cands
  have hsorted : (List.insertionSort distCandGE cands).Pairwise
      (fun a b : String × DistCand => b.2.votes ≤ a.2.votes) :=
    List.sorted_insertionSort distCandGE cands
  obtain ⟨ent, hent⟩ : ∃ ent, (List.insertionSort distCandGE cands)[0]? = some ent := by
    cases hs : List.insertionSort distCandGE cands with
    | nil =>
      have h0 : cands.Perm [] := by
        rw [← hs]
        exact hperm.symm
      exact absurd h0.eq_nil hne
    | cons a t => exact ⟨a, by simp⟩
  have hmem : ent ∈ cands := hperm.mem_iff.mp (List.getElem?_mem hent)
  refine ⟨ent.1, ent.2, ?_, ?_, ?_, ?_⟩
  · simp [finishDistrict, hent]
  · exact omapFind_eq_some_of_mem_nodup (by simpa using hmem) hnd
  · simp [finishDistrict, hent]
  · intro e he
    exact head_max_of_pairwise (fun x => x.2.votes) hsorted hent e (hperm.mem_iff.mpr he)

/-- Claim C2: every aggregated district with at least one candidate declares
a winner whose aggregated vote total bounds every other candidate's total in
that district, and whose recorded party is the one stored for that winner. -/
theorem district_winner_has_max_votes (rows : List RawVoteRow) (dn : String) (dist : District)
    (h : omapFind (processVoteData rows).districtResults dn = some dist)
    (hne : dist.candidates ≠ []) :
    ∃ w cw, dist.winner = some w ∧
      omapFind dist.candidates w = some cw ∧
      dist.winnerParty = some cw.party ∧
      ∀ e ∈ dist.candidates, e.2.votes ≤ cw.votes := by
  rw [districtResults_find] at h
  rcases Option.map_eq_some'.mp h with ⟨cands, hfind, rfl⟩
  have hnd : (omapKeys cands).Nodup :=
    districts_fold_nodup _ ([], []) (by simp) _ (mem_of_omapFind_eq_some hfind)
  exact finishDistrict_winner_max dn cands _ hnd hne

/-- Witness for C2 on the two-row sample. -/
theorem district_winner_has_max_votes_witness :
    ∃ w cw, districtTaitung.winner = some w ∧
      omapFind districtTaitung.candidates w = some cw ∧
      districtTaitung.winnerParty = some cw.party ∧
      ∀ e ∈ districtTaitung.candidates, e.2.votes ≤ cw.votes :=
  district_winner_has_max_votes [rowX, rowY] "臺東縣第01選區" districtTaitung
    (by decide) (by decide)

-- ---------------------------------------------------------------------------
-- Claim C3: the allow-list and dropped rows

theorem omapKeys_map_entry {α β : Type} (m : OMap α) (g : String × α → β) :
    omapKeys (m.map (fun p => (p.1, g p))) = omapKeys m := by
  induction m with
  | nil => rfl
  | cons p rest ih => simp [ih]

theorem inScopeRow_contains {row : RawVoteRow} (h : inScopeRow row = true) :
    RECALL_DISTRICTS.contains row.electoral_district_name = true := by
  unfold inScopeRow at h
  exact (Bool.and_eq_true_iff.mp h).2

theorem districts_fold_keys (l : List RawVoteRow)
    (acc : OMap (OMap DistCand) × OMap (List String))
    (hrows : ∀ r ∈ l, inScopeRow r = true)
    (hacc : ∀ k ∈ omapKeys acc.1, RECALL_DISTRICTS.contains k = true) :
    ∀ k ∈ omapKeys (l.foldl addRowToDistricts acc).1,
      RECALL_DISTRICTS.contains k = true := by
  induction l generalizing acc with
  | nil => exact hacc
  | cons row rest ih =>
    rw [List.foldl_cons]
    apply ih _ (fun r hr => hrows r (List.mem_cons_of_mem _ hr))
    intro k hk
    by_cases hd : row.electoral_district_name = ""
    · rw [show addRowToDistricts acc row = acc from by simp [addRowToDistricts, hd]] at hk
      exact hacc k hk
    · simp only [addRowToDistricts, if_neg hd] at hk
      rw [omapKeys_set] at hk
      by_cases hmem : row.electoral_district_name ∈ omapKeys acc.1
      · rw [if_pos hmem] at hk
        exact hacc k hk
      · rw [if_neg hmem] at hk
        rcases List.mem_append.mp hk with hk | hk
        · exact hacc k hk
        · simp at hk
          subst hk
          exact inScopeRow_contains (hrows row (List.mem_cons_self _ _))

theorem finalizeVillage_districtName (v : Village) :
    (finalizeVillage v).districtName = v.districtName :=
  rfl

theorem finalizeVillage_geo_key (v : Village) :
    (finalizeVillage v).geo_key = v.geo_key :=
  rfl

theorem villages_fold_inv (districts : OMap District) (l : List RawVoteRow)
    (acc : OMap Village × OMap String)
    (hrows : ∀ r ∈ l, inScopeRow r = true)
    (hacc : ∀ p ∈ acc.1, RECALL_DISTRICTS.contains p.2.districtName = true ∧
      p.2.geo_key = p.1 ∧ p.1 ≠ "") :
    ∀ p ∈ (l.foldl (addRowToVillages districts) acc).1,
      RECALL_DISTRICTS.contains p.2.districtName = true ∧ p.2.geo_key = p.1 ∧ p.1 ≠ "" := by
  induction l generalizing acc with
  | nil => exact hacc
  | cons row rest ih =>
    rw [List.foldl_cons]
    apply ih _ (fun r hr => hrows r (List.mem_cons_of_mem _ hr))
    intro p hp
    by_cases hskip : row.geo_key = "" ∨ row.electoral_district_name = ""
    · rw [show addRowToVillages districts acc row = acc from by
        unfold addRowToVillages
        rw [if_pos hskip]] at hp
      exact hacc p hp
    · have hg : row.geo_key ≠ "" := fun h2 => hskip (Or.inl h2)
      cases hfind : omapFind acc.1 row.geo_key with
      | some v =>
        simp only [addRowToVillages, if_neg hskip, hfind] at hp
        rcases mem_of_mem_omapSet hp with rfl | hp2
        · have hv := hacc _ (mem_of_omapFind_eq_some hfind)
          exact ⟨hv.1, hv.2.1, hg⟩
        · exact hacc p hp2
      | none =>
        simp only [addRowToVillages, if_neg hskip, hfind] at hp
        rcases mem_of_mem_omapSet hp with rfl | hp2
        · exact ⟨inScopeRow_contains (hrows row (List.mem_cons_self _ _)), rfl, hg⟩
        · exact hacc p hp2

theorem processVoteData_filter_idem (rows : List RawVoteRow) :
    processVoteData (rows.filter inScopeRow) = processVoteData rows := by
  simp only [processVoteData, List.filter_filter, Bool.and_self]

theorem villages_fold_skip (districts : OMap District) (l : List RawVoteRow)
    (init : OMap Village × OMap String) :
    (l.filter (fun r => r.geo_key ≠ "" && r.electoral_district_name ≠ "")).foldl
        (addRowToVillages districts) init =
      l.foldl (addRowToVillages districts) init := by
  induction l generalizing init with
  | nil => rfl
  | cons row rest ih =>
    rw [List.filter_cons]
    split
    · rw [List.foldl_cons, List.foldl_cons]
      exact ih _
    · next hp =>
      rw [List.foldl_cons]
      have hd : row.geo_key = "" ∨ row.electoral_district_name = "" := by
        by_contra hc
        push_neg at hc
        exact hp (by simp [hc.1, hc.2])
      have hskip : addRowToVillages districts init row = init := by
        unfold addRowToVillages
        rw [if_pos hd]
      rw [hskip]
      exact ih init

/-- Counterexample to C3 as stated: a row with a missing `geo_key` but an
allow-listed district creates no Village, yet its votes do reach the
District entity (candidate X carries its 5 votes), so the row is not dropped
from the district aggregation. -/
theorem missing_geo_key_row_reaches_district :
    (processVoteData [rowNoGeo]).villageResults = [] ∧
    (omapFind (processVoteData [rowNoGeo]).districtResults "臺東縣第01選區").map
        (fun d => omapFind d.candidates "X") = some (some ⟨5, "P1"⟩) := by
  constructor
  · decide
  · decide

/-- Claim C3 (amended): no Village or District entity is created for a
district outside the allow-list; rows whose district name is missing or not
allow-listed are dropped entirely (filtering them away changes nothing); and
a row with a missing `geo_key` contributes to no Village (the village pass
skips it), though its votes still accumulate into its District. -/
theorem allowlist_and_dropped_rows (rows : List RawVoteRow) :
    (∀ dn ∈ omapKeys (processVoteData rows).districtResults,
      RECALL_DISTRICTS.contains dn = true) ∧
    (∀ gk v, omapFind (processVoteData rows).villageResults gk = some v →
      RECALL_DISTRICTS.contains v.districtName = true ∧ v.geo_key = gk ∧ gk ≠ "") ∧
    processVoteData (rows.filter inScopeRow) = processVoteData rows ∧
    (∀ (districts : OMap District) (init : OMap Village × OMap String),
      (rows.filter (fun r => r.geo_key ≠ "" && r.electoral_district_name ≠ "")).foldl
          (addRowToVillages districts) init =
        rows.foldl (addRowToVillages districts) init) := by
  refine ⟨?_, ?_, processVoteData_filter_idem rows, fun districts init =>
    villages_fold_skip districts rows init⟩
  · intro dn hdn
    rw [show omapKeys (processVoteData rows).districtResults =
        omapKeys ((rows.filter inScopeRow).foldl addRowToDistricts ([], [])).1 from
      omapKeys_map_entry _ _] at hdn
    exact districts_fold_keys _ ([], []) (fun r hr => (List.mem_filter.mp hr).2)
      (by simp) dn hdn
  · intro gk v hv
    rw [villageResults_find] at hv
    rcases Option.map_eq_some'.mp hv with ⟨v0, hv0, rfl⟩
    have hinv := villages_fold_inv _ _ ([], []) (fun r hr => (List.mem_filter.mp hr).2)
      (by simp) _ (mem_of_omapFind_eq_some hv0)
    rw [finalizeVillage_districtName, finalizeVillage_geo_key]
    exact hinv

/-- Witness for C3 (amended) on the two-row sample. -/
theorem allowlist_and_dropped_rows_witness :
    RECALL_DISTRICTS.contains villageA1.districtName = true ∧
    villageA1.geo_key = "A1" ∧ "A1" ≠ "" :=
  (allowlist_and_dropped_rows [rowX, rowY]).2.1 "A1" villageA1 (by decide)

-- ---------------------------------------------------------------------------
-- Claim C8: CSV export round trip

theorem strMk_data (s : String) : String.mk s.data = s :=
  rfl

theorem digitChar_safe (m : Nat) :
    Nat.digitChar m ≠ ',' ∧ Nat.digitChar m ≠ '\n' ∧ Nat.digitChar m ≠ '"' := by
  rcases m with _|_|_|_|_|_|_|_|_|_|_|_|_|_|_|_|m
  all_goals try decide
  unfold Nat.digitChar
  repeat rw [if_neg (by omega)]
  decide

theorem toDigitsCore_safe (fuel : Nat) :
    ∀ (n : Nat) (ds : List Char), (∀ c ∈ ds, c ≠ ',' ∧ c ≠ '\n' ∧ c ≠ '"') →
      ∀ c ∈ Nat.toDigitsCore 10 fuel n ds, c ≠ ',' ∧ c ≠ '\n' ∧ c ≠ '"' := by
  induction fuel with
  | zero =>
    intro n ds hds
    simpa [Nat.toDigitsCore] using hds
  | succ fuel ih =>
    intro n ds hds
    have hcons : ∀ c ∈ Nat.digitChar (n % 10) :: ds, c ≠ ',' ∧ c ≠ '\n' ∧ c ≠ '"' := by
      intro c hc
      rcases List.mem_cons.mp hc with rfl | hc
      · exact digitChar_safe _
      · exact hds c hc
    simp only [Nat.toDigitsCore]
    split
    · exact hcons
    · exact ih _ _ hcons

theorem natRepr_safe (n : Nat) :
    ∀ c ∈ (Nat.repr n).data, c ≠ ',' ∧ c ≠ '\n' ∧ c ≠ '"' := by
  rw [show (Nat.repr n).data = Nat.toDigits 10 n from rfl]
  unfold Nat.toDigits
  exact toDigitsCore_safe _ _ _ (by simp)

theorem intString_safe (i : Int) :
    ∀ c ∈ (toString i).data, c ≠ ',' ∧ c ≠ '\n' ∧ c ≠ '"' := by
  cases i with
  | ofNat m => exact natRepr_safe m
  | negSucc m =>
    intro c hc
    rw [show (toString (Int.negSucc m)).data = '-' :: (Nat.repr (m + 1)).data from rfl] at hc
    rcases List.mem_cons.mp hc with rfl | hc
    · decide
    · exact natRepr_safe _ c hc

theorem csvScan_comma (cs field : List Char) (recd : List String)
    (rows : List (List String)) :
    csvScan (',' :: cs) false field recd rows =
      csvScan cs false [] (recd ++ [String.mk field]) rows := by
  simp [csvScan]

theorem csvScan_newline (cs field : List Char) (recd : List String)
    (rows : List (List String)) :
    csvScan ('\n' :: cs) false field recd rows =
      csvScan cs false [] [] (rows ++ [recd ++ [String.mk field]]) := by
  simp [csvScan]

theorem csvScan_openQuote (cs : List Char) (recd : List String)
    (rows : List (List String)) :
    csvScan ('"' :: cs) false [] recd rows = csvScan cs true [] recd rows := by
  simp [csvScan]

theorem csvScan_safe_chars (l : List Char)
    (hl : ∀ c ∈ l, c ≠ ',' ∧ c ≠ '\n' ∧ c ≠ '"') :
    ∀ (rest field : List Char) (recd : List String) (rows : List (List String)),
      csvScan (l ++ rest) false field recd rows =
        csvScan rest false (field ++ l) recd rows := by
  induction l with
  | nil =>
    intro rest field recd rows
    simp
  | cons c t ih =>
    intro rest field recd rows
    have hc := hl c (List.mem_cons_self _ _)
    rw [List.cons_append]
    rw [show csvScan (c :: (t ++ rest)) false field recd rows =
        csvScan (t ++ rest) false (field ++ [c]) recd rows from by
      simp [csvScan, hc.1, hc.2.1, hc.2.2]]
    rw [ih (fun x hx => hl x (List.mem_cons_of_mem _ hx)) rest (field ++ [c]) recd rows]
    simp

theorem csvScan_in_quotes (note : List Char) :
    ∀ (rest field : List Char) (recd : List String) (rows : List (List String)),
      (∀ c0 cs0, rest = c0 :: cs0 → c0 ≠ '"') →
      csvScan (escapeQuotes note ++ '"' :: rest) true field recd rows =
        csvScan rest false (field ++ note) recd rows := by
  induction note with
  | nil =>
    intro rest field recd rows hrest
    rw [show escapeQuotes [] = [] from rfl, List.nil_append]
    cases rest with
    | nil =>
      rw [List.append_nil]
      exact rfl
    | cons c0 cs0 =>
      have hc0 := hrest c0 cs0 rfl
      rw [show csvScan ('"' :: c0 :: cs0) true field recd rows =
          csvScan (c0 :: cs0) false field recd rows from by simp [csvScan, hc0]]
      rw [List.append_nil]
  | cons c t ih =>
    intro rest field recd rows hrest
    by_cases hc : c = '"'
    · subst hc
      rw [show escapeQuotes ('"' :: t) = '"' :: '"' :: escapeQuotes t from by
        simp [escapeQuotes]]
      rw [List.cons_append, List.cons_append]
      rw [show csvScan ('"' :: '"' :: (escapeQuotes t ++ '"' :: rest)) true field recd rows =
          csvScan (escapeQuotes t ++ '"' :: rest) true (field ++ ['"']) recd rows from rfl]
      rw [ih rest (field ++ ['"']) recd rows hrest]
      simp
    · rw [show escapeQuotes (c :: t) = c :: escapeQuotes t from by simp [escapeQuotes, hc]]
      rw [List.cons_append]
      rw [show csvScan (c :: (escapeQuotes t ++ '"' :: rest)) true field recd rows =
          csvScan (escapeQuotes t ++ '"' :: rest) true (field ++ [c]) recd rows from by
        simp [csvScan, hc]]
      rw [ih rest (field ++ [c]) recd rows hrest]
      simp

theorem csvScan_row (a : Annot) (ha : csvSafe a.name) (rest : List Char)
    (hrest : ∀ c0 cs0, rest = c0 :: cs0 → c0 ≠ '"')
    (recd : List String) (rows : List (List String)) :
    csvScan (csvRowChars a ++ rest) false [] recd rows =
      csvScan rest false a.note.data
        (recd ++ [a.name, toString a.lat, toString a.lng]) rows := by
  rw [show csvRowChars a = a.name.data ++ ',' :: ((toString a.lat).data ++ ',' ::
      ((toString a.lng).data ++ ',' :: (('"' :: escapeQuotes a.note.data) ++ ['"']))) from rfl]
  simp only [List.append_assoc, List.cons_append, List.singleton_append, List.nil_append]
  rw [csvScan_safe_chars a.name.data ha]
  simp only [List.nil_append]
  rw [csvScan_comma]
  rw [csvScan_safe_chars (toString a.lat).data (intString_safe a.lat)]
  simp only [List.nil_append]
  rw [csvScan_comma]
  rw [csvScan_safe_chars (toString a.lng).data (intString_safe a.lng)]
  simp only [List.nil_append]
  rw [csvScan_comma]
  rw [csvScan_openQuote]
  rw [csvScan_in_quotes a.note.data rest [] _ _ hrest]
  simp [strMk_data]

theorem csvScan_store_rows :
    ∀ (l : AnnotStore), (∀ p ∈ l, csvSafe p.2.name) → l ≠ [] →
      ∀ rows, csvScan (joinChar '\n' (l.map (fun p => csvRowChars p.2))) false [] [] rows =
        rows ++ l.map (fun p => annotTuple p.2) := by
  intro l
  induction l with
  | nil =>
    intro _ hne
    exact absurd rfl hne
  | cons p t ih =>
    intro hl _ rows
    cases t with
    | nil =>
      rw [show joinChar '\n' ([p].map (fun q => csvRowChars q.2)) = csvRowChars p.2 from rfl]
      rw [show csvRowChars p.2 = csvRowChars p.2 ++ [] from (List.append_nil _).symm]
      rw [csvScan_row p.2 (hl p (List.mem_cons_self _ _)) []
        (by intro c0 cs0 h; cases h) [] rows]
      simp [csvScan, annotTuple, strMk_data]
    | cons q t2 =>
      rw [show joinChar '\n' ((p :: q :: t2).map (fun r => csvRowChars r.2)) =
          csvRowChars p.2 ++ '\n' :: joinChar '\n' ((q :: t2).map (fun r => csvRowChars r.2))
        from rfl]
      rw [csvScan_row p.2 (hl p (List.mem_cons_self _ _)) _
        (by
          intro c0 cs0 h
          injection h with h1 _
          rw [← h1]
          decide) [] rows]
      rw [csvScan_newline]
      rw [ih (fun r hr => hl r (List.mem_cons_of_mem _ hr)) (by simp)
        (rows ++ [[] ++ [p.2.name, toString p.2.lat, toString p.2.lng] ++
          [String.mk p.2.note.data]])]
      simp [annotTuple, strMk_data]

theorem csvScan_header (rest : List Char) :
    csvScan (csvHeader ++ '\n' :: rest) false [] [] [] =
      csvScan rest false [] [] [["name", "latitude", "longitude", "note"]] := by
  rw [show csvHeader ++ '\n' :: rest =
      "name".data ++ ',' :: ("latitude".data ++ ',' :: ("longitude".data ++ ',' ::
        ("note".data ++ '\n' :: rest))) from rfl]
  rw [csvScan_safe_chars "name".data (by decide)]
  rw [csvScan_comma]
  rw [csvScan_safe_chars "latitude".data (by decide)]
  rw [csvScan_comma]
  rw [csvScan_safe_chars "longitude".data (by decide)]
  rw [csvScan_comma]
  rw [csvScan_safe_chars "note".data (by decide)]
  rw [csvScan_newline]
  rfl

/-- Claim C8 (amended): for every nonempty store whose names contain no
comma, newline, or double quote, exporting to CSV and re-parsing yields
exactly the header row followed by one (name, lat, lng, note) field row per
stored note in order — in particular the same multiset of tuples, with the
doubled-quote escaping of the note field undone by the parse. -/
theorem exportToCSV_round_trip (annots : AnnotStore) (hne : annots ≠ [])
    (hsafe : ∀ p ∈ annots, csvSafe p.2.name) :
    (exportToCSV annots).map parseCSV =
      some (["name", "latitude", "longitude", "note"] ::
        annots.map (fun p => annotTuple p.2)) := by
  cases annots with
  | nil => exact absurd rfl hne
  | cons p t =>
    rw [show exportToCSV (p :: t) = some (String.mk (joinChar '\n'
        (csvHeader :: (p :: t).map (fun q => csvRowChars q.2)))) from by
      simp [exportToCSV]]
    rw [Option.map_some']
    rw [show parseCSV (String.mk (joinChar '\n'
        (csvHeader :: (p :: t).map (fun q => csvRowChars q.2)))) =
      csvScan (joinChar '\n' (csvHeader :: (p :: t).map (fun q => csvRowChars q.2)))
        false [] [] [] from rfl]
    rw [show joinChar '\n' (csvHeader :: (p :: t).map (fun q => csvRowChars q.2)) =
        csvHeader ++ '\n' :: joinChar '\n' ((p :: t).map (fun q => csvRowChars q.2)) from rfl]
    rw [csvScan_header]
    rw [csvScan_store_rows (p :: t) hsafe (by simp)]
    rfl

/-- Counterexample to C8 as stated: a name containing a comma is exported
unquoted, so re-parsing splits it into two fields and the tuples differ. -/
theorem exportToCSV_round_trip_cex :
    (exportToCSV [("A1", ⟨"a,b", "x", 1, 2⟩)]).map parseCSV ≠
      some (["name", "latitude", "longitude", "note"] ::
        [(("A1", ⟨"a,b", "x", 1, 2⟩) : String × Annot)].map (fun p => annotTuple p.2)) := by
  decide

/-- Witness for C8 (amended): a store with a quote and newline in the note
round-trips. -/
theorem exportToCSV_round_trip_witness :
    (exportToCSV [("A1", ⟨"村 一", "note \"q\"\nok", 23, -121⟩)]).map parseCSV =
      some (["name", "latitude", "longitude", "note"] ::
        [(("A1", ⟨"村 一", "note \"q\"\nok", 23, -121⟩) : String × Annot)].map
          (fun p => annotTuple p.2)) :=
  exportToCSV_round_trip [("A1", ⟨"村 一", "note \"q\"\nok", 23, -121⟩)]
    (by decide) (by decide)

end Election
